import Mathlib

/-!
Shallow embedding of `src/npc.py`: a toy in-memory e-shop with customers,
shopping carts, an item catalog and a purchase transaction.

Modelling conventions:
* Python numbers (prices, balances, totals) are modelled as exact rationals.
  Python `round(x, 2)` is modelled as `roundTo2` (round half to even on the
  exact value, scaled by 100), matching the banker rounding of Python `round`.
* Quantities are integers (`Int`), since the code never guards against
  negative values and `decrease_item_quantities` can drive them below zero.
* Mutation is modelled by explicit state passing: methods that mutate
  `self` return the updated structure.  `Customer.make_purchase` returns
  `(error?, customer, shop)`, where a `some` error corresponds to the
  Python `ValueError` raised before any mutation, so on error the returned
  customer and shop are the inputs unchanged.
* The purchase-history entry built at `npc.py:42-44` carries the current
  date from the wall clock; the date is outside the model and omitted, the
  entry keeps the basket snapshot and the total that the string renders.
* The ledger entry at `npc.py:130` stores a reference to the customer
  object plus the rounded total; the model records the customer id and the
  total, which is all the claims inspect.
-/

/-- Python built-in `round` to the nearest integer: round half to even. -/
def roundHalfEven (q : ℚ) : ℤ :=
  if q - ⌊q⌋ < 1/2 then ⌊q⌋
  else if 1/2 < q - ⌊q⌋ then ⌊q⌋ + 1
  else if ⌊q⌋ % 2 = 0 then ⌊q⌋ else ⌊q⌋ + 1

/-- Python `round(x, 2)`: round to 2 decimal places, half to even. -/
def roundTo2 (q : ℚ) : ℚ := (roundHalfEven (q * 100) : ℚ) / 100

/-- An item of the shop catalog (`class Item`, `npc.py:53-58`): a name, a
price and an available quantity. -/
structure Item where
  name : String
  price : ℚ
  quantity : ℤ
deriving DecidableEq

/-- A shopping cart (`class ShoppingCart`, `npc.py:64-67`): an ordered list
of (item, requested quantity) pairs. -/
structure ShoppingCart where
  items : List (Item × ℤ)
deriving DecidableEq

/-- One purchase-history entry (`purchase_details`, `npc.py:43`): the basket
contents and the total cost rendered into the string (date omitted, see the
module docstring). -/
structure PurchaseDetails where
  basket_snapshot : List (Item × ℤ)
  total_cost : ℚ
deriving DecidableEq

/-- A customer (`class Customer`, `npc.py:3-12`). -/
structure Customer where
  customer_id : String
  customer_type : String
  basket : ShoppingCart
  purchase_history : List PurchaseDetails
  balance : ℚ
deriving DecidableEq

/-- The blank state `Customer.__init__` creates (`npc.py:4-12`): empty basket,
empty history. -/
def Customer.init (customer_id customer_type : String) (balance : ℚ) : Customer :=
  ⟨customer_id, customer_type, ⟨[]⟩, [], balance⟩

/-- The shop (`class EShop`, `npc.py:106-113`): catalog, customer registry
and purchase ledger (each ledger record modelled as customer id and total). -/
structure EShop where
  items : List Item
  customers : List Customer
  purchase_records : List (String × ℚ)
deriving DecidableEq

/-- The blank state `EShop.__init__` creates (`npc.py:107-113`). -/
def EShop.init : EShop := ⟨[], [], []⟩

/-- `ShoppingCart.add_item` (`npc.py:73-75`): append the (item, quantity)
pair at the end of the cart. -/
def ShoppingCart.add_item (c : ShoppingCart) (item : Item) (quantity : ℤ) :
    ShoppingCart :=
  ⟨c.items ++ [(item, quantity)]⟩

/-- `ShoppingCart.add_item` called without the quantity argument, which
Python defaults to 1 (`npc.py:73`). -/
def ShoppingCart.add_item_default (c : ShoppingCart) (item : Item) :
    ShoppingCart :=
  c.add_item item 1

/-- `ShoppingCart.calculate_total_cost` (`npc.py:101-103`): Python `sum` over
the generator `item.price * quantity`, a left fold starting from 0. -/
def ShoppingCart.calculate_total_cost (c : ShoppingCart) : ℚ :=
  c.items.foldl (fun acc e => acc + e.1.price * (e.2 : ℚ)) 0

/-- `EShop.add_item` (`npc.py:119-121`). -/
def EShop.add_item (s : EShop) (item : Item) : EShop :=
  { s with items := s.items ++ [item] }

/-- `EShop.add_customer` (`npc.py:123-125`). -/
def EShop.add_customer (s : EShop) (c : Customer) : EShop :=
  { s with customers := s.customers ++ [c] }

/-- The inner loop of `EShop.decrease_item_quantities` (`npc.py:141-144`):
scan the catalog, decrement the first item whose name matches, then `break`;
if no name matches, the loop falls through with no effect. -/
def decrease_first_matching (name : String) (quantity : ℤ) :
    List Item → List Item
  | [] => []
  | it :: rest =>
    if it.name = name then { it with quantity := it.quantity - quantity } :: rest
    else it :: decrease_first_matching name quantity rest

/-- The outer loop of `EShop.decrease_item_quantities` (`npc.py:140-144`):
process the cart entries in order, each one running the inner scan on the
current catalog. -/
def decrease_all : List (Item × ℤ) → List Item → List Item
  | [], catalog => catalog
  | e :: rest, catalog => decrease_all rest (decrease_first_matching e.1.name e.2 catalog)

/-- `EShop.decrease_item_quantities` (`npc.py:138-144`). -/
def EShop.decrease_item_quantities (s : EShop) (basket : ShoppingCart) : EShop :=
  { s with items := decrease_all basket.items s.items }

/-- `EShop.decrease_customer_balance` (`npc.py:134-136`): mutates the
customer, the shop state is untouched. -/
def decrease_customer_balance (c : Customer) (amount : ℚ) : Customer :=
  { c with balance := c.balance - amount }

/-- `EShop.process_purchase` (`npc.py:127-132`): round the total again,
append the ledger record, decrement the balance, decrement the stock. -/
def EShop.process_purchase (s : EShop) (c : Customer) (total_cost : ℚ) :
    EShop × Customer :=
  let t := roundTo2 total_cost
  let s1 : EShop := { s with purchase_records := s.purchase_records ++ [(c.customer_id, t)] }
  let c1 := decrease_customer_balance c t
  (s1.decrease_item_quantities c1.basket, c1)

/-- The only failure the purchase code can raise: the `ValueError` at
`npc.py:37` for insufficient funds.  No other failure kind exists in the
source. -/
inductive PurchaseError where
  | insufficientFunds (customer_id : String)
deriving DecidableEq

/-- The total `Customer.make_purchase` computes before the funds check
(`npc.py:32-34`): the raw cart cost rounded to 2 decimals, then times 0.9
when the customer type is the literal string used by the code. -/
def discounted_total (c : Customer) : ℚ :=
  let t := roundTo2 c.basket.calculate_total_cost
  if c.customer_type = "golden customer" then t * (9/10) else t

/-- `Customer.make_purchase` (`npc.py:28-46`): compute the discounted total,
raise on insufficient funds before any mutation, otherwise append the
history entry and hand over to `EShop.process_purchase`. -/
def Customer.make_purchase (c : Customer) (shop : EShop) :
    Option PurchaseError × Customer × EShop :=
  let total_cost := discounted_total c
  if c.balance < total_cost then
    (some (PurchaseError.insufficientFunds c.customer_id), c, shop)
  else
    let c1 : Customer :=
      { c with purchase_history := c.purchase_history ++ [⟨c.basket.items, total_cost⟩] }
    let p := shop.process_purchase c1 total_cost
    (none, p.2, p.1)

/-- Total quantity the cart requests for a given catalog name: the sum of
the quantities of all cart entries whose item name equals `name`. -/
def cart_demand : List (Item × ℤ) → String → ℤ
  | [], _ => 0
  | e :: rest, name => (if e.1.name = name then e.2 else 0) + cart_demand rest name

/-- Scenario C item from the spec test list: price 10.0, stock 5. -/
def scenarioC_item : Item := ⟨"ItemC", 10, 5⟩

/-- Scenario C customer: golden tier (spec literal "golden"), balance 100.0,
cart holding 10 units of the scenario item. -/
def scenarioC_customer : Customer := ⟨"C3", "golden", ⟨[(scenarioC_item, 10)]⟩, [], 100⟩

/-- Scenario C shop: catalog holding only the scenario item. -/
def scenarioC_shop : EShop := ⟨[scenarioC_item], [scenarioC_customer], []⟩

/-- Scenario A items from the spec test list. -/
def scenarioA_item1 : Item := ⟨"Item1", 10, 5⟩

/-- Second scenario A item. -/
def scenarioA_item2 : Item := ⟨"Item2", 20, 3⟩

/-- Scenario A customer: regular, balance 100.0, one unit of each item. -/
def scenarioA_customer : Customer :=
  ⟨"C1", "regular", ⟨[(scenarioA_item1, 1), (scenarioA_item2, 1)]⟩, [], 100⟩

/-- Scenario A shop. -/
def scenarioA_shop : EShop := ⟨[scenarioA_item1, scenarioA_item2], [], []⟩

/-- Witness state for the balance-sign analysis: a golden customer whose
balance 0.009 equals the discounted total of a single 0.01 item. -/
def roundup_item : Item := ⟨"X", 1/100, 5⟩

/-- The golden customer of the balance-sign analysis. -/
def roundup_customer : Customer := ⟨"G", "golden customer", ⟨[(roundup_item, 1)]⟩, [], 9/1000⟩

/-- The shop of the balance-sign analysis. -/
def roundup_shop : EShop := ⟨[roundup_item], [], []⟩

/-- Scenario B item from the spec test list: price 10.0, stock 5. -/
def scenarioB_item : Item := ⟨"ItemB", 10, 5⟩

/-- Scenario B customer: golden tier (spec literal "golden"), balance 5.0,
cart holding 1 unit of the 10.0 item. -/
def scenarioB_customer : Customer := ⟨"C2", "golden", ⟨[(scenarioB_item, 1)]⟩, [], 5⟩

/-- Scenario B shop. -/
def scenarioB_shop : EShop := ⟨[scenarioB_item], [scenarioB_customer], []⟩

/-- Golden-discount witness item: raw price 10.995, the rounding-order
example called out by the spec. -/
def rounding_item : Item := ⟨"R", 10995/1000, 5⟩

/-- Golden-discount witness customer (tier string the code checks). -/
def rounding_customer : Customer := ⟨"R1", "golden customer", ⟨[(rounding_item, 1)]⟩, [], 100⟩

/-- Golden-discount witness shop. -/
def rounding_shop : EShop := ⟨[rounding_item], [], []⟩

/-- Cart entry with no matching catalog item, for the silent-skip witness. -/
def ghost_item : Item := ⟨"Ghost", 1, 1⟩

/-- Customer whose cart mixes a catalog item with the ghost entry. -/
def ghost_customer : Customer :=
  ⟨"C5", "regular", ⟨[(scenarioA_item1, 1), (ghost_item, 2)]⟩, [], 100⟩

/-- Shop whose catalog lacks the ghost name. -/
def ghost_shop : EShop := ⟨[scenarioA_item1], [], []⟩

/-- Left fold computing the cart total, with the accumulator pulled out. -/
lemma foldl_total_eq_sum (l : List (Item × ℤ)) (a : ℚ) :
    l.foldl (fun acc e => acc + e.1.price * (e.2 : ℚ)) a
      = a + (l.map (fun e => e.1.price * (e.2 : ℚ))).sum := by
  induction l generalizing a with
  | nil => simp
  | cons e rest ih => simp [ih, add_assoc]

/-- Rounding an integer-valued rational is the identity. -/
lemma roundHalfEven_int (n : ℤ) : roundHalfEven (n : ℚ) = n := by
  simp [roundHalfEven, Int.floor_intCast]

/-- Rounding zero gives zero. -/
lemma roundTo2_zero : roundTo2 0 = 0 := by
  norm_num [roundTo2, roundHalfEven]

/-- Rounding to two decimals is idempotent. -/
lemma roundTo2_idem (q : ℚ) : roundTo2 (roundTo2 q) = roundTo2 q := by
  unfold roundTo2
  rw [div_mul_cancel₀ _ (by norm_num : (100 : ℚ) ≠ 0), roundHalfEven_int]

/-- Round half to even moves the value up by at most one half. -/
lemma roundHalfEven_le (q : ℚ) : (roundHalfEven q : ℚ) ≤ q + 1/2 := by
  have h1 : (⌊q⌋ : ℚ) ≤ q := Int.floor_le q
  have h2 : q < ⌊q⌋ + 1 := Int.lt_floor_add_one q
  unfold roundHalfEven
  by_cases hlt : q - ⌊q⌋ < 1/2
  · rw [if_pos hlt]; linarith
  · rw [if_neg hlt]
    by_cases hgt : 1/2 < q - ⌊q⌋
    · rw [if_pos hgt]; push_cast; linarith
    · rw [if_neg hgt]
      have heq : q - ⌊q⌋ = 1/2 := le_antisymm (not_lt.1 hgt) (not_lt.1 hlt)
      by_cases hpar : ⌊q⌋ % 2 = 0
      · rw [if_pos hpar]; linarith
      · rw [if_neg hpar]; push_cast; linarith

/-- Rounding to two decimals moves the value up by at most 1/200. -/
lemma roundTo2_le (q : ℚ) : roundTo2 q ≤ q + 1/200 := by
  have h := roundHalfEven_le (q * 100)
  unfold roundTo2
  rw [div_le_iff₀ (by norm_num : (0:ℚ) < 100)]
  linarith

/-- The inner catalog scan preserves the list of item names. -/
lemma dfm_map_name (name : String) (q : ℤ) (l : List Item) :
    (decrease_first_matching name q l).map Item.name = l.map Item.name := by
  induction l with
  | nil => rfl
  | cons it rest ih =>
    by_cases h : it.name = name <;>
      simp [decrease_first_matching, h, ih]

/-- When no catalog item carries the name, the inner scan is the identity. -/
lemma dfm_eq_of_not_mem (name : String) (q : ℤ) (l : List Item)
    (h : name ∉ l.map Item.name) : decrease_first_matching name q l = l := by
  induction l with
  | nil => rfl
  | cons it rest ih =>
    simp only [List.map_cons, List.mem_cons] at h
    push_neg at h
    rw [decrease_first_matching, if_neg (fun he => h.1 he.symm), ih h.2]

/-- On a catalog with no duplicate names, the inner scan is a pointwise map
that decrements the (unique) item carrying the name. -/
lemma dfm_eq_map_of_nodup (name : String) (q : ℤ) (l : List Item)
    (h : (l.map Item.name).Nodup) :
    decrease_first_matching name q l =
      l.map (fun it => if it.name = name then ⟨it.name, it.price, it.quantity - q⟩ else it) := by
  induction l with
  | nil => rfl
  | cons it rest ih =>
    simp only [List.map_cons, List.nodup_cons] at h
    by_cases hn : it.name = name
    · rw [decrease_first_matching, if_pos hn, List.map_cons, if_pos hn]
      congr 1
      have hrest : ∀ x ∈ rest,
          id x = (if x.name = name then (⟨x.name, x.price, x.quantity - q⟩ : Item) else x) := by
        intro x hx
        have hxn : x.name ≠ name := by
          intro hxe
          exact h.1 (List.mem_map.2 ⟨x, hx, by rw [hxe, hn]⟩)
        rw [if_neg hxn]
        rfl
      have h2 := List.map_congr_left hrest
      rw [List.map_id] at h2
      exact h2
    · rw [decrease_first_matching, if_neg hn, List.map_cons, if_neg hn, ih h.2]

/-- On a catalog with no duplicate names, running the whole commit loop
subtracts from every item exactly the total demand the cart places on its
name. -/
lemma decrease_all_eq_map_of_nodup (entries : List (Item × ℤ)) (catalog : List Item)
    (h : (catalog.map Item.name).Nodup) :
    decrease_all entries catalog =
      catalog.map (fun it => ⟨it.name, it.price, it.quantity - cart_demand entries it.name⟩) := by
  induction entries generalizing catalog with
  | nil =>
    have hid : ∀ x ∈ catalog,
        id x = (⟨x.name, x.price, x.quantity - cart_demand [] x.name⟩ : Item) := by
      intro x _
      show x = (⟨x.name, x.price, x.quantity - 0⟩ : Item)
      rw [sub_zero]
    have h2 := List.map_congr_left hid
    rw [List.map_id] at h2
    exact h2
  | cons e rest ih =>
    show decrease_all rest (decrease_first_matching e.1.name e.2 catalog) = _
    have hn2 : ((decrease_first_matching e.1.name e.2 catalog).map Item.name).Nodup := by
      rw [dfm_map_name]
      exact h
    rw [ih _ hn2, dfm_eq_map_of_nodup _ _ _ h, List.map_map]
    refine List.map_congr_left ?_
    intro it _
    by_cases hn : it.name = e.1.name
    · have hc : e.1.name = it.name := hn.symm
      simp only [Function.comp_apply, if_pos hn, cart_demand, if_pos hc]
      show (⟨it.name, it.price, it.quantity - e.2 - cart_demand rest it.name⟩ : Item) = _
      rw [sub_sub]
    · have hc : ¬ e.1.name = it.name := fun hx => hn hx.symm
      simp only [Function.comp_apply, if_neg hn, cart_demand, if_neg hc, zero_add]

/-- A cart whose entries all request non-negative quantities places a
non-negative demand on every name. -/
lemma cart_demand_nonneg (entries : List (Item × ℤ)) (name : String)
    (h : ∀ e ∈ entries, 0 ≤ e.2) : 0 ≤ cart_demand entries name := by
  induction entries with
  | nil => simp [cart_demand]
  | cons e rest ih =>
    have he := h e (by simp)
    have hr := ih fun x hx => h x (List.mem_cons_of_mem _ hx)
    rw [cart_demand]
    by_cases hn : e.1.name = name
    · rw [if_pos hn]; linarith
    · rw [if_neg hn]; linarith

/-- Every item of the catalog produced by the inner scan is either an
untouched input item or the first matching item with its quantity
decremented. -/
lemma dfm_mem (name : String) (q : ℤ) (l : List Item) (it2 : Item)
    (h : it2 ∈ decrease_first_matching name q l) :
    it2 ∈ l ∨ ∃ it ∈ l, it.name = name ∧ it2 = ⟨it.name, it.price, it.quantity - q⟩ := by
  induction l with
  | nil => simp [decrease_first_matching] at h
  | cons it rest ih =>
    by_cases hn : it.name = name
    · rw [decrease_first_matching, if_pos hn] at h
      rcases List.mem_cons.1 h with h1 | h1
      · right
        exact ⟨it, by simp, hn, h1⟩
      · left
        exact List.mem_cons_of_mem _ h1
    · rw [decrease_first_matching, if_neg hn] at h
      rcases List.mem_cons.1 h with h1 | h1
      · left
        simp [h1]
      · rcases ih h1 with h2 | ⟨it3, hm, hname, heq⟩
        · left
          exact List.mem_cons_of_mem _ h2
        · right
          exact ⟨it3, List.mem_cons_of_mem _ hm, hname, heq⟩

/-- If every cart entry requests a non-negative quantity and every catalog
item has enough stock to cover the full demand on its name, then the commit
loop leaves every quantity non-negative. -/
lemma decrease_all_nonneg (entries : List (Item × ℤ)) (catalog : List Item)
    (hq : ∀ e ∈ entries, 0 ≤ e.2)
    (hc : ∀ it ∈ catalog, 0 ≤ it.quantity ∧ cart_demand entries it.name ≤ it.quantity) :
    ∀ it2 ∈ decrease_all entries catalog, 0 ≤ it2.quantity := by
  induction entries generalizing catalog with
  | nil =>
    intro it2 h2
    exact (hc it2 h2).1
  | cons e rest ih =>
    intro it2 h2
    have hq_e : 0 ≤ e.2 := hq e (by simp)
    have hq_rest : ∀ x ∈ rest, 0 ≤ x.2 := fun x hx => hq x (List.mem_cons_of_mem _ hx)
    refine ih _ hq_rest ?_ it2 h2
    intro it hit
    rcases dfm_mem _ _ _ _ hit with hmem | ⟨it3, hmem, hname, heq⟩
    · obtain ⟨h0, hd⟩ := hc it hmem
      refine ⟨h0, ?_⟩
      have hle : cart_demand rest it.name ≤ cart_demand (e :: rest) it.name := by
        rw [cart_demand]
        by_cases hn : e.1.name = it.name
        · rw [if_pos hn]; linarith
        · rw [if_neg hn]; linarith
      linarith
    · obtain ⟨h0, hd⟩ := hc it3 hmem
      have hdemand : cart_demand (e :: rest) it3.name = e.2 + cart_demand rest it3.name := by
        rw [cart_demand, if_pos hname.symm]
      have hrest0 : 0 ≤ cart_demand rest it3.name := cart_demand_nonneg _ _ hq_rest
      rw [heq]
      constructor
      · show 0 ≤ it3.quantity - e.2
        rw [hdemand] at hd
        linarith
      · show cart_demand rest it3.name ≤ it3.quantity - e.2
        rw [hdemand] at hd
        linarith

/-- A cart entry whose name matches nothing in the catalog is skipped by the
commit loop: removing it from the cart leaves the resulting catalog
unchanged. -/
lemma decrease_all_skip (e : Item × ℤ) (pre post : List (Item × ℤ)) (catalog : List Item)
    (h : e.1.name ∉ catalog.map Item.name) :
    decrease_all (pre ++ e :: post) catalog = decrease_all (pre ++ post) catalog := by
  induction pre generalizing catalog with
  | nil =>
    show decrease_all post (decrease_first_matching e.1.name e.2 catalog) = _
    rw [dfm_eq_of_not_mem _ _ _ h]
    rfl
  | cons e2 rest ih =>
    show decrease_all (rest ++ e :: post) (decrease_first_matching e2.1.name e2.2 catalog)
        = decrease_all (rest ++ post) (decrease_first_matching e2.1.name e2.2 catalog)
    refine ih _ ?_
    rw [dfm_map_name]
    exact h

/-- Unfolding of `make_purchase` when the funds gate fails: the error is
returned and customer and shop come back untouched. -/
lemma make_purchase_of_lt (c : Customer) (s : EShop)
    (h : c.balance < discounted_total c) :
    c.make_purchase s = (some (PurchaseError.insufficientFunds c.customer_id), c, s) := by
  simp only [Customer.make_purchase, if_pos h]

/-- Unfolding of `make_purchase` when the funds gate passes: no error, the
history entry is appended, the ledger records the re-rounded total, the
balance drops by the re-rounded total and the stock loop runs. -/
lemma make_purchase_of_le (c : Customer) (s : EShop)
    (h : ¬ c.balance < discounted_total c) :
    c.make_purchase s =
      (none,
       ⟨c.customer_id, c.customer_type, c.basket,
        c.purchase_history ++ [⟨c.basket.items, discounted_total c⟩],
        c.balance - roundTo2 (discounted_total c)⟩,
       ⟨decrease_all c.basket.items s.items, s.customers,
        s.purchase_records ++ [(c.customer_id, roundTo2 (discounted_total c))]⟩) := by
  simp only [Customer.make_purchase, EShop.process_purchase,
    EShop.decrease_item_quantities, decrease_customer_balance, if_neg h]

/-- C7: for every cart, `calculate_total_cost` returns the sum over all cart
entries of price times quantity, and returns 0 for the empty cart.  The
function is a pure fold over the entry list, so computing it changes no
state. -/
theorem total_cost_is_sum (c : ShoppingCart) :
    c.calculate_total_cost = (c.items.map (fun e => e.1.price * (e.2 : ℚ))).sum ∧
    ShoppingCart.calculate_total_cost ⟨[]⟩ = 0 := by
  constructor
  · rw [ShoppingCart.calculate_total_cost, foldl_total_eq_sum, zero_add]
  · rfl

/-- C9: `add_item` appends a new (item, quantity) entry at the end of the
entry list, the Python default quantity is 1, and adding the same item twice
yields two distinct entries instead of merging. -/
theorem add_item_appends (c : ShoppingCart) (i : Item) (q q2 : ℤ) :
    (c.add_item i q).items = c.items ++ [(i, q)] ∧
    (c.add_item_default i).items = c.items ++ [(i, 1)] ∧
    ((c.add_item i q).add_item i q2).items = c.items ++ [(i, q), (i, q2)] := by
  refine ⟨rfl, rfl, ?_⟩
  simp [ShoppingCart.add_item]

/-- C3: `make_purchase` fails with the insufficient-funds error exactly when
the discounted total strictly exceeds the balance (a total equal to the
balance passes the gate), and on that failure the customer and the shop are
returned exactly unchanged. -/
theorem insufficient_funds_iff (c : Customer) (s : EShop) :
    ((c.make_purchase s).1 = some (PurchaseError.insufficientFunds c.customer_id) ↔
      c.balance < discounted_total c) ∧
    (c.balance < discounted_total c →
      c.make_purchase s = (some (PurchaseError.insufficientFunds c.customer_id), c, s)) ∧
    (discounted_total c = c.balance → (c.make_purchase s).1 = none) := by
  by_cases h : c.balance < discounted_total c
  · refine ⟨?_, fun _ => make_purchase_of_lt c s h, fun he => absurd (he ▸ h) (lt_irrefl _)⟩
    rw [make_purchase_of_lt c s h]
    simp [h]
  · refine ⟨?_, fun hc => absurd hc h, fun _ => ?_⟩
    · rw [make_purchase_of_le c s h]
      simp [h]
    · rw [make_purchase_of_le c s h]

/-- C10: a purchase on an empty cart by a customer with non-negative balance
succeeds, leaves the balance and every catalog quantity unchanged, and
appends exactly one history entry and one ledger record with total 0. -/
theorem empty_cart_purchase (c : Customer) (s : EShop)
    (hb : c.basket.items = []) (h0 : 0 ≤ c.balance) :
    (c.make_purchase s).1 = none ∧
    (c.make_purchase s).2.1.balance = c.balance ∧
    (c.make_purchase s).2.2.items = s.items ∧
    (c.make_purchase s).2.1.purchase_history = c.purchase_history ++ [⟨[], 0⟩] ∧
    (c.make_purchase s).2.2.purchase_records = s.purchase_records ++ [(c.customer_id, 0)] := by
  have htot : discounted_total c = 0 := by
    simp only [discounted_total, ShoppingCart.calculate_total_cost, hb, List.foldl_nil,
      roundTo2_zero, zero_mul, ite_self]
  have hlt : ¬ c.balance < discounted_total c := by
    rw [htot]
    exact not_lt.2 h0
  rw [make_purchase_of_le c s hlt]
  refine ⟨rfl, ?_, ?_, ?_, ?_⟩
  · show c.balance - roundTo2 (discounted_total c) = c.balance
    rw [htot, roundTo2_zero, sub_zero]
  · show decrease_all c.basket.items s.items = s.items
    rw [hb]
    rfl
  · show c.purchase_history ++ [⟨c.basket.items, discounted_total c⟩]
        = c.purchase_history ++ [⟨[], 0⟩]
    rw [hb, htot]
  · show s.purchase_records ++ [(c.customer_id, roundTo2 (discounted_total c))]
        = s.purchase_records ++ [(c.customer_id, 0)]
    rw [htot, roundTo2_zero]

/-- C10 witness: the empty-cart theorem applied to a concrete customer with
balance 50 and the empty shop. -/
theorem empty_cart_purchase_witness :
    ((Customer.init "E" "regular" 50).make_purchase EShop.init).1 = none ∧
    ((Customer.init "E" "regular" 50).make_purchase EShop.init).2.1.balance
      = (Customer.init "E" "regular" 50).balance ∧
    ((Customer.init "E" "regular" 50).make_purchase EShop.init).2.2.items = EShop.init.items ∧
    ((Customer.init "E" "regular" 50).make_purchase EShop.init).2.1.purchase_history
      = (Customer.init "E" "regular" 50).purchase_history ++ [⟨[], 0⟩] ∧
    ((Customer.init "E" "regular" 50).make_purchase EShop.init).2.2.purchase_records
      = EShop.init.purchase_records ++ [((Customer.init "E" "regular" 50).customer_id, 0)] :=
  empty_cart_purchase (Customer.init "E" "regular" 50) EShop.init rfl
    (by norm_num [Customer.init])

/-- C6: for a customer carrying the golden tier string the code checks, a
successful purchase charges exactly `roundTo2 (roundTo2 rawTotal * 0.9)`:
the raw total is rounded to 2 decimals, the 10 percent discount is applied,
and the result is rounded again before being written to the ledger and
subtracted from the balance. -/
theorem golden_discount_rounding (c : Customer) (s : EShop)
    (hg : c.customer_type = "golden customer")
    (hs : (c.make_purchase s).1 = none) :
    (c.make_purchase s).2.1.balance
      = c.balance - roundTo2 (roundTo2 c.basket.calculate_total_cost * (9/10)) ∧
    (c.make_purchase s).2.2.purchase_records
      = s.purchase_records
          ++ [(c.customer_id, roundTo2 (roundTo2 c.basket.calculate_total_cost * (9/10)))] := by
  have hd : discounted_total c = roundTo2 c.basket.calculate_total_cost * (9/10) := by
    simp [discounted_total, hg]
  by_cases h : c.balance < discounted_total c
  · rw [make_purchase_of_lt c s h] at hs
    exact absurd hs (by simp)
  · rw [make_purchase_of_le c s h]
    constructor
    · show c.balance - roundTo2 (discounted_total c) = _
      rw [hd]
    · show s.purchase_records ++ [(c.customer_id, roundTo2 (discounted_total c))] = _
      rw [hd]

/-- C6 witness: the golden rounding theorem at the concrete raw total 10.995
named by the spec, on a golden customer with balance 100. -/
theorem golden_discount_rounding_witness :
    (rounding_customer.make_purchase rounding_shop).2.1.balance
      = rounding_customer.balance
          - roundTo2 (roundTo2 rounding_customer.basket.calculate_total_cost * (9/10)) ∧
    (rounding_customer.make_purchase rounding_shop).2.2.purchase_records
      = rounding_shop.purchase_records
          ++ [(rounding_customer.customer_id,
               roundTo2 (roundTo2 rounding_customer.basket.calculate_total_cost * (9/10)))] :=
  golden_discount_rounding rounding_customer rounding_shop rfl (by
    have h : ¬ rounding_customer.balance < discounted_total rounding_customer := by
      simp [discounted_total, rounding_customer, rounding_item,
        ShoppingCart.calculate_total_cost]
      norm_num [roundTo2, roundHalfEven]
    rw [make_purchase_of_le _ _ h])

/-- C1 (amended): the code has no stock gate.  `make_purchase` checks only
funds: whenever the discounted total does not exceed the balance the
purchase succeeds regardless of catalog stock, appending one history entry
and one ledger record, charging the rounded total and running the stock
decrement loop (which can push quantities negative). -/
theorem no_stock_gate (c : Customer) (s : EShop)
    (h : ¬ c.balance < discounted_total c) :
    (c.make_purchase s).1 = none ∧
    (c.make_purchase s).2.1.purchase_history.length = c.purchase_history.length + 1 ∧
    (c.make_purchase s).2.2.purchase_records.length = s.purchase_records.length + 1 ∧
    (c.make_purchase s).2.1.balance = c.balance - roundTo2 (discounted_total c) ∧
    (c.make_purchase s).2.2.items = decrease_all c.basket.items s.items := by
  rw [make_purchase_of_le c s h]
  refine ⟨rfl, ?_, ?_, rfl, rfl⟩
  · show (c.purchase_history
        ++ [(⟨c.basket.items, discounted_total c⟩ : PurchaseDetails)]).length = _
    simp
  · show (s.purchase_records ++ [(c.customer_id, roundTo2 (discounted_total c))]).length = _
    simp

/-- C1 counterexample: in Scenario C — tier string "golden", balance 100.0,
buying 10 units of a 10.0 item with only 5 in stock — the purchase does not
fail at all: no stock check exists.  It succeeds, the balance drops to 0,
the catalog quantity becomes -5 and one history entry is appended, refuting
the claimed `InsufficientStock` failure and the claimed absence of
mutation. -/
theorem stock_gate_counterexample :
    (scenarioC_customer.make_purchase scenarioC_shop).1 = none ∧
    (scenarioC_customer.make_purchase scenarioC_shop).2.1.balance = 0 ∧
    (scenarioC_customer.make_purchase scenarioC_shop).2.2.items = [⟨"ItemC", 10, -5⟩] ∧
    (scenarioC_customer.make_purchase scenarioC_shop).2.1.purchase_history.length = 1 := by
  have hd : discounted_total scenarioC_customer = 100 := by
    simp [discounted_total, scenarioC_customer, scenarioC_item,
      ShoppingCart.calculate_total_cost]
    norm_num [roundTo2, roundHalfEven]
  have h : ¬ scenarioC_customer.balance < discounted_total scenarioC_customer := by
    rw [hd]
    simp [scenarioC_customer]
  rw [make_purchase_of_le _ _ h]
  refine ⟨rfl, ?_, ?_, ?_⟩
  · show scenarioC_customer.balance - roundTo2 (discounted_total scenarioC_customer) = 0
    rw [hd]
    simp [scenarioC_customer]
    norm_num [roundTo2, roundHalfEven]
  · show decrease_all scenarioC_customer.basket.items scenarioC_shop.items
        = [⟨"ItemC", 10, -5⟩]
    simp [scenarioC_customer, scenarioC_shop, scenarioC_item, decrease_all,
      decrease_first_matching]
  · show (scenarioC_customer.purchase_history
        ++ [(⟨scenarioC_customer.basket.items,
             discounted_total scenarioC_customer⟩ : PurchaseDetails)]).length = 1
    simp [scenarioC_customer]

/-- C1 witness: the no-stock-gate theorem applied to the Scenario C state,
whose funds gate passes. -/
theorem no_stock_gate_witness :
    (scenarioC_customer.make_purchase scenarioC_shop).1 = none ∧
    (scenarioC_customer.make_purchase scenarioC_shop).2.1.purchase_history.length
      = scenarioC_customer.purchase_history.length + 1 ∧
    (scenarioC_customer.make_purchase scenarioC_shop).2.2.purchase_records.length
      = scenarioC_shop.purchase_records.length + 1 ∧
    (scenarioC_customer.make_purchase scenarioC_shop).2.1.balance
      = scenarioC_customer.balance - roundTo2 (discounted_total scenarioC_customer) ∧
    (scenarioC_customer.make_purchase scenarioC_shop).2.2.items
      = decrease_all scenarioC_customer.basket.items scenarioC_shop.items :=
  no_stock_gate scenarioC_customer scenarioC_shop (by
    have hd : discounted_total scenarioC_customer = 100 := by
      simp [discounted_total, scenarioC_customer, scenarioC_item,
        ShoppingCart.calculate_total_cost]
      norm_num [roundTo2, roundHalfEven]
    rw [hd]
    simp [scenarioC_customer])

/-- C2: on a successful purchase against a catalog without duplicate names,
the balance drops by exactly the final rounded discounted total, every
catalog item loses exactly the quantity the cart demands on its name (an
item matched by a single cart entry loses that entry quantity, an unmatched
item loses 0), exactly one history entry and one ledger record are
appended, and every other field of customer and shop is unchanged. -/
theorem purchase_success_effects (c : Customer) (s : EShop)
    (hnd : (s.items.map Item.name).Nodup)
    (hs : (c.make_purchase s).1 = none) :
    (c.make_purchase s).2.1.balance = c.balance - roundTo2 (discounted_total c) ∧
    (c.make_purchase s).2.1.purchase_history
      = c.purchase_history ++ [⟨c.basket.items, discounted_total c⟩] ∧
    (c.make_purchase s).2.1.customer_id = c.customer_id ∧
    (c.make_purchase s).2.1.customer_type = c.customer_type ∧
    (c.make_purchase s).2.1.basket = c.basket ∧
    (c.make_purchase s).2.2.items
      = s.items.map
          (fun it => ⟨it.name, it.price, it.quantity - cart_demand c.basket.items it.name⟩) ∧
    (c.make_purchase s).2.2.purchase_records
      = s.purchase_records ++ [(c.customer_id, roundTo2 (discounted_total c))] ∧
    (c.make_purchase s).2.2.customers = s.customers := by
  by_cases h : c.balance < discounted_total c
  · rw [make_purchase_of_lt c s h] at hs
    exact absurd hs (by simp)
  · rw [make_purchase_of_le c s h]
    refine ⟨rfl, rfl, rfl, rfl, rfl, ?_, rfl, rfl⟩
    exact decrease_all_eq_map_of_nodup _ _ hnd

/-- C2 witness: the success-effects theorem at Scenario A — a regular
customer with balance 100 buying one unit each of two catalog items. -/
theorem purchase_success_effects_witness :
    (scenarioA_customer.make_purchase scenarioA_shop).2.1.balance
      = scenarioA_customer.balance - roundTo2 (discounted_total scenarioA_customer) ∧
    (scenarioA_customer.make_purchase scenarioA_shop).2.1.purchase_history
      = scenarioA_customer.purchase_history
          ++ [⟨scenarioA_customer.basket.items, discounted_total scenarioA_customer⟩] ∧
    (scenarioA_customer.make_purchase scenarioA_shop).2.1.customer_id
      = scenarioA_customer.customer_id ∧
    (scenarioA_customer.make_purchase scenarioA_shop).2.1.customer_type
      = scenarioA_customer.customer_type ∧
    (scenarioA_customer.make_purchase scenarioA_shop).2.1.basket
      = scenarioA_customer.basket ∧
    (scenarioA_customer.make_purchase scenarioA_shop).2.2.items
      = scenarioA_shop.items.map
          (fun it => ⟨it.name, it.price,
            it.quantity - cart_demand scenarioA_customer.basket.items it.name⟩) ∧
    (scenarioA_customer.make_purchase scenarioA_shop).2.2.purchase_records
      = scenarioA_shop.purchase_records
          ++ [(scenarioA_customer.customer_id, roundTo2 (discounted_total scenarioA_customer))] ∧
    (scenarioA_customer.make_purchase scenarioA_shop).2.2.customers
      = scenarioA_shop.customers :=
  purchase_success_effects scenarioA_customer scenarioA_shop
    (by simp [scenarioA_shop, scenarioA_item1, scenarioA_item2])
    (by
      have h : ¬ scenarioA_customer.balance < discounted_total scenarioA_customer := by
        simp [discounted_total, scenarioA_customer, scenarioA_item1, scenarioA_item2,
          ShoppingCart.calculate_total_cost]
        norm_num [roundTo2, roundHalfEven]
      rw [make_purchase_of_le _ _ h])

/-- C8: a cart entry whose item name matches no catalog item is silently
skipped during the commit: the resulting catalog is the one obtained from
the cart without that entry, while the balance decrement, history append
and ledger append still happen exactly as for the full cart. -/
theorem unmatched_entry_skipped (c : Customer) (s : EShop)
    (pre post : List (Item × ℤ)) (e : Item × ℤ)
    (hsplit : c.basket.items = pre ++ e :: post)
    (hmiss : e.1.name ∉ s.items.map Item.name)
    (hs : (c.make_purchase s).1 = none) :
    (c.make_purchase s).2.2.items = decrease_all (pre ++ post) s.items ∧
    (c.make_purchase s).2.1.balance = c.balance - roundTo2 (discounted_total c) ∧
    (c.make_purchase s).2.1.purchase_history
      = c.purchase_history ++ [⟨c.basket.items, discounted_total c⟩] ∧
    (c.make_purchase s).2.2.purchase_records
      = s.purchase_records ++ [(c.customer_id, roundTo2 (discounted_total c))] := by
  by_cases h : c.balance < discounted_total c
  · rw [make_purchase_of_lt c s h] at hs
    exact absurd hs (by simp)
  · rw [make_purchase_of_le c s h]
    refine ⟨?_, rfl, rfl, rfl⟩
    show decrease_all c.basket.items s.items = _
    rw [hsplit]
    exact decrease_all_skip _ _ _ _ hmiss

/-- C8 witness: the silent-skip theorem on a cart holding one catalog item
and one ghost entry absent from the catalog. -/
theorem unmatched_entry_skipped_witness :
    (ghost_customer.make_purchase ghost_shop).2.2.items
      = decrease_all ([(scenarioA_item1, 1)] ++ []) ghost_shop.items ∧
    (ghost_customer.make_purchase ghost_shop).2.1.balance
      = ghost_customer.balance - roundTo2 (discounted_total ghost_customer) ∧
    (ghost_customer.make_purchase ghost_shop).2.1.purchase_history
      = ghost_customer.purchase_history
          ++ [⟨ghost_customer.basket.items, discounted_total ghost_customer⟩] ∧
    (ghost_customer.make_purchase ghost_shop).2.2.purchase_records
      = ghost_shop.purchase_records
          ++ [(ghost_customer.customer_id, roundTo2 (discounted_total ghost_customer))] :=
  unmatched_entry_skipped ghost_customer ghost_shop
    [(scenarioA_item1, 1)] [] (ghost_item, 2)
    rfl
    (by simp [ghost_shop, ghost_item, scenarioA_item1])
    (by
      have h : ¬ ghost_customer.balance < discounted_total ghost_customer := by
        simp [discounted_total, ghost_customer, ghost_item, scenarioA_item1,
          ShoppingCart.calculate_total_cost]
        norm_num [roundTo2, roundHalfEven]
      rw [make_purchase_of_le _ _ h])

/-- C4 (amended): catalog quantities stay non-negative after a purchase
attempt only under a stock-cover precondition the code never checks: every
cart entry requests a non-negative quantity and every catalog item has at
least the total quantity the cart demands on its name.  Under that
precondition the quantities are non-negative whether the transaction
succeeds or fails; without it a successful purchase can leave a negative
quantity. -/
theorem quantity_nonneg_when_stock_covers (c : Customer) (s : EShop)
    (hq : ∀ e ∈ c.basket.items, 0 ≤ e.2)
    (hc : ∀ it ∈ s.items, 0 ≤ it.quantity ∧ cart_demand c.basket.items it.name ≤ it.quantity) :
    ∀ it2 ∈ (c.make_purchase s).2.2.items, 0 ≤ it2.quantity := by
  by_cases h : c.balance < discounted_total c
  · rw [make_purchase_of_lt c s h]
    intro it2 h2
    exact (hc it2 h2).1
  · rw [make_purchase_of_le c s h]
    exact decrease_all_nonneg _ _ hq hc

/-- C4 counterexample: in Scenario C the purchase transaction completes and
the catalog quantity ends at -5, refuting the claim that quantities are
never negative after a transaction. -/
theorem quantity_negative_counterexample :
    ((scenarioC_customer.make_purchase scenarioC_shop).2.2.items.map Item.quantity)
      = [-5] ∧ (-5 : ℤ) < 0 := by
  refine ⟨?_, by norm_num⟩
  have hd : discounted_total scenarioC_customer = 100 := by
    simp [discounted_total, scenarioC_customer, scenarioC_item,
      ShoppingCart.calculate_total_cost]
    norm_num [roundTo2, roundHalfEven]
  have h : ¬ scenarioC_customer.balance < discounted_total scenarioC_customer := by
    rw [hd]
    simp [scenarioC_customer]
  rw [make_purchase_of_le _ _ h]
  show (decrease_all scenarioC_customer.basket.items scenarioC_shop.items).map Item.quantity
      = [-5]
  simp [scenarioC_customer, scenarioC_shop, scenarioC_item, decrease_all,
    decrease_first_matching]

/-- C4 witness: the stock-cover theorem at Scenario A, whose catalog covers
the cart demand, instantiated at the first resulting catalog item. -/
theorem quantity_nonneg_witness : (0 : ℤ) ≤ (Item.mk "Item1" 10 4).quantity :=
  quantity_nonneg_when_stock_covers scenarioA_customer scenarioA_shop
    (by
      intro e he
      simp [scenarioA_customer, scenarioA_item1, scenarioA_item2] at he
      rcases he with he | he <;> simp [he])
    (by
      intro it hit
      simp [scenarioA_shop, scenarioA_item1, scenarioA_item2] at hit
      rcases hit with hit | hit <;>
        simp [hit, cart_demand, scenarioA_customer, scenarioA_item1, scenarioA_item2])
    (Item.mk "Item1" 10 4)
    (by
      have h : ¬ scenarioA_customer.balance < discounted_total scenarioA_customer := by
        simp [discounted_total, scenarioA_customer, scenarioA_item1, scenarioA_item2,
          ShoppingCart.calculate_total_cost]
        norm_num [roundTo2, roundHalfEven]
      rw [make_purchase_of_le _ _ h]
      show Item.mk "Item1" 10 4
          ∈ decrease_all scenarioA_customer.basket.items scenarioA_shop.items
      simp [scenarioA_customer, scenarioA_shop, scenarioA_item1, scenarioA_item2,
        decrease_all, decrease_first_matching])

/-- C5 (amended): the funds gate compares the pre-rounding discounted total
with the balance, but the charge is the re-rounded total, which can exceed
the gate-checked value by up to 1/200.  Hence after a successful purchase a
non-negative balance is bounded below by -1/200 rather than 0; for a
customer without the golden tier string the re-rounding is the identity, so
the balance does stay non-negative.  The gap is real: a golden customer can
end with a strictly negative balance through the public purchase
operation. -/
theorem balance_bound_after_purchase (c : Customer) (s : EShop)
    (h0 : 0 ≤ c.balance) (hs : (c.make_purchase s).1 = none) :
    -(1/200) ≤ (c.make_purchase s).2.1.balance ∧
    (c.customer_type ≠ "golden customer" → 0 ≤ (c.make_purchase s).2.1.balance) := by
  by_cases h : c.balance < discounted_total c
  · rw [make_purchase_of_lt c s h] at hs
    exact absurd hs (by simp)
  · rw [make_purchase_of_le c s h]
    have hle : discounted_total c ≤ c.balance := not_lt.1 h
    have hrd : roundTo2 (discounted_total c) ≤ discounted_total c + 1/200 := roundTo2_le _
    constructor
    · show -(1/200) ≤ c.balance - roundTo2 (discounted_total c)
      linarith
    · intro hg
      show 0 ≤ c.balance - roundTo2 (discounted_total c)
      have hreg : discounted_total c = roundTo2 c.basket.calculate_total_cost := by
        simp [discounted_total, hg]
      rw [hreg, roundTo2_idem]
      rw [hreg] at hle
      linarith

/-- C5 counterexample: a golden customer with non-negative balance 0.009 and
a cart totalling 0.01 passes the funds gate (discounted total 0.009) but is
charged the re-rounded 0.01, ending with the strictly negative balance
-0.001 — validation was not bypassed, yet the balance went negative. -/
theorem balance_negative_counterexample :
    0 ≤ roundup_customer.balance ∧
    (roundup_customer.make_purchase roundup_shop).1 = none ∧
    (roundup_customer.make_purchase roundup_shop).2.1.balance < 0 := by
  have hd : discounted_total roundup_customer = 9/1000 := by
    simp [discounted_total, roundup_customer, roundup_item,
      ShoppingCart.calculate_total_cost]
    norm_num [roundTo2, roundHalfEven]
  have h : ¬ roundup_customer.balance < discounted_total roundup_customer := by
    rw [hd]
    simp [roundup_customer]
  refine ⟨by norm_num [roundup_customer], ?_, ?_⟩
  · rw [make_purchase_of_le _ _ h]
  · rw [make_purchase_of_le _ _ h]
    show roundup_customer.balance - roundTo2 (discounted_total roundup_customer) < 0
    rw [hd]
    simp [roundup_customer]
    norm_num [roundTo2, roundHalfEven]

/-- C5 witness: the balance bound theorem at Scenario A, a regular customer,
whose final balance is therefore non-negative. -/
theorem balance_bound_witness :
    -(1/200) ≤ (scenarioA_customer.make_purchase scenarioA_shop).2.1.balance ∧
    (scenarioA_customer.customer_type ≠ "golden customer" →
      0 ≤ (scenarioA_customer.make_purchase scenarioA_shop).2.1.balance) :=
  balance_bound_after_purchase scenarioA_customer scenarioA_shop
    (by norm_num [scenarioA_customer])
    (by
      have h : ¬ scenarioA_customer.balance < discounted_total scenarioA_customer := by
        simp [discounted_total, scenarioA_customer, scenarioA_item1, scenarioA_item2,
          ShoppingCart.calculate_total_cost]
        norm_num [roundTo2, roundHalfEven]
      rw [make_purchase_of_le _ _ h])
